import Mathlib

/-!
Verification of the Lagrange surface-mesh / indexed-attribute core contract.

The repository ships only the Python binding layer and its test suite; the
native mesh engine is not part of the sources.  The definitions below are
therefore a shallow embedding of that engine, modelled from the repository's
specification of the core contract (data model, structural edits, connectivity
builder, error taxonomy) and grounded on the concrete meshes used by the
Python tests (the 8-vertex 6-quad cube, the single triangle, ...).

Scalar data is represented with exact rationals, indices with naturals, and
fallible operations return an explicit error code, mirroring the error
taxonomy of the spec (InvalidMapping, InvalidPermutation, NotFound,
StateError, InvalidArgument).
-/

namespace Lagrange

/-- Decidable equality of fallible results, needed to evaluate the model's
operations on concrete inputs inside closed statements. -/
instance {ε α : Type} [DecidableEq ε] [DecidableEq α] :
    DecidableEq (Except ε α) := fun a b =>
  match a, b with
  | .ok x, .ok y =>
      match decEq x y with
      | .isTrue h => .isTrue (by rw [h])
      | .isFalse h => .isFalse (by intro hc; cases hc; exact h rfl)
  | .error x, .error y =>
      match decEq x y with
      | .isTrue h => .isTrue (by rw [h])
      | .isFalse h => .isFalse (by intro hc; cases hc; exact h rfl)
  | .ok _, .error _ => .isFalse (by intro hc; cases hc)
  | .error _, .ok _ => .isFalse (by intro hc; cases hc)

/-- Modelled from the spec: the fixed set of scalar type tags carried by
attribute buffers in the missing native engine. -/
inductive Dtype where
  | int8 | int16 | int32 | int64
  | uint8 | uint16 | uint32 | uint64
  | float32 | float64
deriving DecidableEq

/-- Modelled from the spec: attribute element types of the missing native
engine (`Vertex`, `Facet`, `Edge`, `Corner`, `Value`, `Indexed`). -/
inductive AttributeElement where
  | Vertex | Facet | Edge | Corner | Value | Indexed
deriving DecidableEq

/-- Modelled from the spec: attribute usage tags of the missing native
engine. -/
inductive AttributeUsage where
  | Scalar | Vector | Normal | UV | Color | Position | Bitangent | Tangent
deriving DecidableEq

/-- Modelled from the spec: the collision policies used by `remap_vertices`
when several vertices map to the same target id. -/
inductive CollisionPolicy where
  | KeepFirst | Average | Error
deriving DecidableEq

/-- Modelled from the spec: the error taxonomy of the missing native engine
(section 7 of the spec). -/
inductive MeshError where
  | InvalidArgument | NotFound | InvalidMapping | InvalidPermutation
  | CapacityError | InconsistentTopology | StateError
deriving DecidableEq

/-- Modelled from the spec: the storage of one attribute of the missing
native engine: either a plain buffer (one row of channels per element) or an
indexed pair of sub-buffers (a value pool plus per-corner indices into it). -/
inductive AttrData where
  | plain (elem : AttributeElement) (dtype : Dtype) (rows : List (List ℚ))
  | indexed (valuesElem : AttributeElement) (valuesDtype : Dtype)
      (valuesChannels : ℕ) (valuesRows : List (List ℚ))
      (indicesElem : AttributeElement) (indicesDtype : Dtype)
      (indicesChannels : ℕ) (indices : List ℕ)
deriving DecidableEq

/-- Modelled from the spec: a named, typed attribute of the missing native
engine. -/
structure Attribute where
  name : String
  usage : AttributeUsage
  numChannels : ℕ
  data : AttrData
deriving DecidableEq

/-- Modelled from the spec: the missing native `SurfaceMesh`: dimension,
vertex positions, facet-to-vertex lists, the attribute set (id-keyed, in
creation order, with a monotone fresh-id counter), and the optional derived
edge connectivity (a deduplicated list of unordered vertex pairs). -/
structure SurfaceMesh where
  dim : ℕ
  vertices : List (List ℚ)
  facets : List (List ℕ)
  attrs : List (ℕ × Attribute)
  nextId : ℕ
  edges : Option (List (ℕ × ℕ))
deriving DecidableEq

def SurfaceMesh.numVertices (m : SurfaceMesh) : ℕ := m.vertices.length

def SurfaceMesh.numFacets (m : SurfaceMesh) : ℕ := m.facets.length

/-- One corner per facet-vertex incidence, in facet-then-local order. -/
def SurfaceMesh.cornerVerts (m : SurfaceMesh) : List ℕ := m.facets.flatten

def SurfaceMesh.numCorners (m : SurfaceMesh) : ℕ := m.cornerVerts.length

def SurfaceMesh.hasEdges (m : SurfaceMesh) : Bool := m.edges.isSome

def SurfaceMesh.numEdges (m : SurfaceMesh) : ℕ :=
  match m.edges with
  | none => 0
  | some el => el.length

/-- Element count a plain attribute of the given element type must have. -/
def SurfaceMesh.elemCount (m : SurfaceMesh) : AttributeElement → Option ℕ
  | .Vertex => some m.numVertices
  | .Facet => some m.numFacets
  | .Corner => some m.numCorners
  | _ => none

/-- Well-formedness of a mesh: vertex rows have the mesh dimension, facet
vertex references are in range, attribute buffers have the element count and
channel count announced by their metadata, and attribute ids are below the
fresh-id counter. -/
def SurfaceMesh.wfB (m : SurfaceMesh) : Bool :=
  m.vertices.all (fun r => r.length == m.dim) &&
  m.facets.all (fun f => f.all (fun v => v < m.numVertices)) &&
  m.attrs.all (fun e =>
    match e.2.data with
    | .plain elem _ rows =>
        (match m.elemCount elem with
         | some n => rows.length == n
         | none => true) &&
        rows.all (fun r => r.length == e.2.numChannels)
    | .indexed _ _ _ vals _ _ _ idxs =>
        (idxs.length == m.numCorners) && idxs.all (fun i => i < vals.length)) &&
  m.attrs.all (fun e => e.1 < m.nextId)

/-! ### Attribute set operations -/

def SurfaceMesh.hasAttribute (m : SurfaceMesh) (name : String) : Bool :=
  m.attrs.any (fun e => e.2.name == name)

/-- Modelled from the spec: name-to-id lookup of the missing native attribute
set; a miss is a `NotFound` error. -/
def SurfaceMesh.getAttributeId (m : SurfaceMesh) (name : String) :
    Except MeshError ℕ :=
  match m.attrs.find? (fun e => e.2.name == name) with
  | none => .error .NotFound
  | some e => .ok e.1

/-- Modelled from the spec: access through a previously obtained id (handle);
a deleted or unknown id fails loudly with `NotFound`, never returning stale
data. -/
def SurfaceMesh.attributeById (m : SurfaceMesh) (id : ℕ) :
    Except MeshError Attribute :=
  match m.attrs.find? (fun e => e.1 == id) with
  | none => .error .NotFound
  | some e => .ok e.2

/-- Modelled from the spec: deleting an attribute by name removes the entry
with the resolved id from the attribute set; a miss is a `NotFound` error. -/
def SurfaceMesh.deleteAttribute (m : SurfaceMesh) (name : String) :
    Except MeshError SurfaceMesh :=
  match m.attrs.find? (fun e => e.2.name == name) with
  | none => .error .NotFound
  | some e =>
      .ok { m with attrs := m.attrs.filter (fun e' => e'.1 != e.1) }

/-- Modelled from the spec: attribute creation of the missing native engine.
For the `Indexed` element type the values sub-buffer is stored with element
type `Value` keeping the requested dtype and channel count, and the indices
sub-buffer is stored with element type `Corner`, exactly one channel (one
index per corner) and dtype uint32 regardless of the integer dtype of the
supplied indices (values are reduced modulo 2^32).  A duplicate name is an
error. -/
def SurfaceMesh.createAttribute (m : SurfaceMesh) (name : String)
    (elem : AttributeElement) (usage : AttributeUsage) (numChannels : ℕ)
    (dtype : Dtype) (initValues : List (List ℚ)) (idxDtype : Dtype)
    (initIndices : List ℕ) : Except MeshError (ℕ × SurfaceMesh) :=
  if m.hasAttribute name then .error .InvalidArgument
  else
    let a : Attribute :=
      match elem with
      | .Indexed =>
          { name := name, usage := usage, numChannels := numChannels,
            data := .indexed .Value dtype numChannels initValues
              .Corner .uint32 1 (initIndices.map (fun i => i % 2 ^ 32)) }
      | _ =>
          { name := name, usage := usage, numChannels := numChannels,
            data := .plain elem dtype initValues }
    .ok (m.nextId,
      { m with attrs := m.attrs ++ [(m.nextId, a)], nextId := m.nextId + 1 })

/-- The element type an attribute is listed under (`Indexed` for indexed
attributes, otherwise its plain element type). -/
def attrElemOf (a : Attribute) : AttributeElement :=
  match a.data with
  | .plain e _ _ => e
  | .indexed _ _ _ _ _ _ _ _ => .Indexed

/-- An optional allow-list used by `filterAttributes`: absent means match
all, an empty list means match none. -/
def matchesOpt {α : Type} [DecidableEq α] : Option (List α) → α → Bool
  | none, _ => true
  | some l, x => l.contains x

/-- Modelled from the spec: `filter_attributes` keeps the attributes whose
usage and element type pass the optional allow-lists (absent list = match
all, empty list = match none), preserving creation order. -/
def filterAttributes (m : SurfaceMesh) (us : Option (List AttributeUsage))
    (es : Option (List AttributeElement)) : SurfaceMesh :=
  { m with attrs := m.attrs.filter (fun e =>
      matchesOpt us e.2.usage && matchesOpt es (attrElemOf e.2)) }

/-! ### Connectivity -/

/-- Undirected edge key: the sorted pair of its endpoint vertices. -/
def edgeKey (a b : ℕ) : ℕ × ℕ := (min a b, max a b)

/-- The edge keys of one facet's sides, in local-corner order. -/
def facetEdgeKeys (f : List ℕ) : List (ℕ × ℕ) :=
  (List.range f.length).map (fun i =>
    edgeKey (f.getD i 0) (f.getD ((i + 1) % f.length) 0))

/-- The edge key of every corner's side, in facet-then-local order. -/
def SurfaceMesh.cornerEdgeKeys (m : SurfaceMesh) : List (ℕ × ℕ) :=
  m.facets.flatMap facetEdgeKeys

/-- Deduplication keeping the first occurrence of each element. -/
def firstDedup {α : Type} [DecidableEq α] (l : List α) : List α :=
  l.foldl (fun acc x => if x ∈ acc then acc else acc ++ [x]) []

/-- Modelled from the spec: the connectivity builder of the missing native
engine deduplicates the sorted vertex pairs induced by facet boundaries via
first-encounter ordering. -/
def SurfaceMesh.buildEdgeList (m : SurfaceMesh) : List (ℕ × ℕ) :=
  firstDedup m.cornerEdgeKeys

/-- Modelled from the spec: `initialize_edges` builds the derived edge
connectivity from the current facet data. -/
def SurfaceMesh.initEdges (m : SurfaceMesh) : SurfaceMesh :=
  { m with edges := some m.buildEdgeList }

/-- Modelled from the spec: `count_num_corners_around_edge`; a
connectivity-dependent query invoked before `initialize_edges` fails loudly
with `StateError`; an out-of-range edge id is `InvalidArgument`. -/
def SurfaceMesh.countCornersAroundEdge (m : SurfaceMesh) (e : ℕ) :
    Except MeshError ℕ :=
  match m.edges with
  | none => .error .StateError
  | some el =>
      if e < el.length then
        .ok ((m.cornerEdgeKeys.filter (fun k => k == el.getD e (0, 0))).length)
      else .error .InvalidArgument

/-- Modelled from the spec: `is_boundary_edge` holds when exactly one corner
is incident to the edge; requires initialized connectivity. -/
def SurfaceMesh.isBoundaryEdge (m : SurfaceMesh) (e : ℕ) :
    Except MeshError Bool :=
  (m.countCornersAroundEdge e).map (fun c => c == 1)

/-- Modelled from the spec: `count_num_corners_around_vertex`; requires
initialized connectivity (`StateError` before `initialize_edges`). -/
def SurfaceMesh.countCornersAroundVertex (m : SurfaceMesh) (v : ℕ) :
    Except MeshError ℕ :=
  match m.edges with
  | none => .error .StateError
  | some _ => .ok ((m.cornerVerts.filter (fun w => w == v)).length)

/-! ### Vertex remapping -/

/-- Modelled from the spec: remap options carrying the collision policies for
float-typed and integer-typed attributes (defaults: average floats, keep the
first integer). -/
structure RemapOptions where
  collisionPolicyFloat : CollisionPolicy := .Average
  collisionPolicyIntegral : CollisionPolicy := .KeepFirst

def defaultRemapOptions : RemapOptions := {}

def policyFor (opts : RemapOptions) (d : Dtype) : CollisionPolicy :=
  match d with
  | .float32 | .float64 => opts.collisionPolicyFloat
  | _ => opts.collisionPolicyIntegral

/-- Number of target vertices of a remap: one past the largest mapping
value (zero for an empty mapping). -/
def newCount (mapping : List ℕ) : ℕ :=
  if mapping.isEmpty then 0 else mapping.foldl max 0 + 1

/-- A mapping is valid when its values cover the contiguous range
`0..newCount-1` with no gaps. -/
def validMapping (mapping : List ℕ) : Bool :=
  (List.range (newCount mapping)).all (fun j => mapping.contains j)

/-- The source vertices merged into target id `j`, in original order. -/
def classMembers (mapping : List ℕ) (j : ℕ) : List ℕ :=
  (List.range mapping.length).filter (fun i => mapping.getD i 0 == j)

/-- Arithmetic mean of a list of rationals. -/
def avg (l : List ℚ) : ℚ := l.sum / l.length

/-- Sequence a list of fallible results, failing on the first error. -/
def collectOk {ε α : Type} : List (Except ε α) → Except ε (List α)
  | [] => .ok []
  | .error e :: _ => .error e
  | .ok a :: rest => (collectOk rest).map (fun l => a :: l)

/-- Modelled from the spec: combine the rows of one collision class per the
collision policy: keep the first row, average componentwise, or fail if the
class holds two distinct rows. -/
def combineRows (pol : CollisionPolicy) (ch : ℕ) (rows : List (List ℚ)) :
    Except MeshError (List ℚ) :=
  match pol with
  | .KeepFirst => .ok (rows.getD 0 (List.replicate ch 0))
  | .Average => .ok ((List.range ch).map (fun k => avg (rows.map (fun r => r.getD k 0))))
  | .Error =>
      if rows.all (fun r => r == rows.getD 0 []) then
        .ok (rows.getD 0 (List.replicate ch 0))
      else .error .InvalidArgument

/-- Rebuild one element-indexed buffer after a remap: one combined row per
target id. -/
def remapRows (pol : CollisionPolicy) (ch : ℕ) (mapping : List ℕ) (nc : ℕ)
    (rows : List (List ℚ)) : Except MeshError (List (List ℚ)) :=
  collectOk ((List.range nc).map (fun j =>
    combineRows pol ch ((classMembers mapping j).map (fun i => rows.getD i []))))

/-- Modelled from the spec: per-attribute effect of `remap_vertices`: only
plain vertex attributes are recombined; facet, corner and indexed attributes
refer to corners or facets, not vertices, and are untouched. -/
def remapAttrEntry (opts : RemapOptions) (mapping : List ℕ) (nc : ℕ)
    (e : ℕ × Attribute) : Except MeshError (ℕ × Attribute) :=
  match e.2.data with
  | .plain elem dtype rows =>
      match elem with
      | .Vertex =>
          (remapRows (policyFor opts dtype) e.2.numChannels mapping nc rows).map
            (fun rows' => (e.1, { e.2 with data := .plain .Vertex dtype rows' }))
      | _ => .ok e
  | .indexed _ _ _ _ _ _ _ _ => .ok e

/-- Rewrite every facet vertex reference through the mapping. -/
def remapFacets (mapping : List ℕ) (facets : List (List ℕ)) : List (List ℕ) :=
  facets.map (fun f => f.map (fun v => mapping.getD v 0))

/-- Modelled from the spec: `remap_vertices`.  The mapping must have one
entry per vertex and cover `0..new_count-1` with no gaps (a skipped id is an
`InvalidMapping` error, with no mutation).  Vertex positions and plain vertex
attributes are combined per collision policy, facet references are rewritten,
indexed attributes survive unchanged, and the derived edge connectivity is
invalidated. -/
def remapVertices (opts : RemapOptions) (m : SurfaceMesh) (mapping : List ℕ) :
    Except MeshError SurfaceMesh :=
  if mapping.length ≠ m.numVertices then .error .InvalidArgument
  else if validMapping mapping = false then .error .InvalidMapping
  else
    match remapRows opts.collisionPolicyFloat m.dim mapping (newCount mapping) m.vertices,
        collectOk (m.attrs.map (remapAttrEntry opts mapping (newCount mapping))) with
    | .ok v', .ok a' =>
        .ok { m with
                vertices := v'
                facets := remapFacets mapping m.facets
                attrs := a'
                edges := none }
    | .error e, _ => .error e
    | .ok _, .error e => .error e

/-- The mesh produced by a successful remap (the input mesh on error). -/
def remapResult (opts : RemapOptions) (m : SurfaceMesh) (mapping : List ℕ) :
    SurfaceMesh :=
  match remapVertices opts m mapping with
  | .ok m' => m'
  | .error _ => m

/-! ### Permutations -/

/-- `order` is a valid permutation of `0..n-1`: right length and every id
present (which forces bijectivity). -/
def validPerm (order : List ℕ) (n : ℕ) : Bool :=
  (order.length == n) && (List.range n).all (fun j => order.contains j)

/-- New id of old vertex `v` under `order` (`order` lists old ids in new
order). -/
def invPerm (order : List ℕ) (v : ℕ) : ℕ :=
  order.findIdx (fun x => x == v)

/-- Per-attribute effect of `permute_vertices`: plain vertex attributes are
gathered in the new order; everything else is untouched. -/
def permuteVertexAttr (order : List ℕ) (a : Attribute) : Attribute :=
  match a.data with
  | .plain .Vertex d rows =>
      { a with data := .plain .Vertex d (order.map (fun o => rows.getD o [])) }
  | _ => a

/-- Modelled from the spec: `permute_vertices`.  A non-bijective order is an
`InvalidPermutation` error with no mutation.  On success vertex positions and
vertex attributes are gathered in the new order, facet references are
rewritten through the inverse permutation, and the derived edge connectivity
is kept valid by rewriting its vertex pairs in lockstep (the repository's
`test_permute_vertices.py` asserts `has_edges` and working corner queries
right after a permute, with no re-initialization). -/
def permuteVertices (m : SurfaceMesh) (order : List ℕ) :
    Except MeshError SurfaceMesh :=
  if validPerm order m.numVertices = false then .error .InvalidPermutation
  else
    .ok { m with
            vertices := order.map (fun o => m.vertices.getD o [])
            facets := m.facets.map (fun f => f.map (invPerm order))
            attrs := m.attrs.map (fun e => (e.1, permuteVertexAttr order e.2))
            edges := m.edges.map (fun el =>
              el.map (fun p => edgeKey (invPerm order p.1) (invPerm order p.2))) }

/-- The mesh produced by a successful vertex permutation (the input mesh on
error). -/
def permuteVerticesResult (m : SurfaceMesh) (order : List ℕ) : SurfaceMesh :=
  match permuteVertices m order with
  | .ok m' => m'
  | .error _ => m

/-- First corner id of facet `fo` in facet-then-local corner order. -/
def cornerStart (facets : List (List ℕ)) (fo : ℕ) : ℕ :=
  ((facets.take fo).map List.length).sum

/-- Gather per-corner data into the new facet order, block by block. -/
def gatherCorners {α : Type} (facets : List (List ℕ)) (order : List ℕ)
    (xs : List α) : List α :=
  (order.map (fun fo =>
    (xs.drop (cornerStart facets fo)).take (facets.getD fo []).length)).flatten

/-- Per-attribute effect of `permute_facets`: facet attributes are gathered
in the new order, corner-element data (plain corner attributes and the index
buffer of indexed attributes) is gathered block-wise so corners remain
addressed correctly. -/
def permuteFacetAttr (facets : List (List ℕ)) (order : List ℕ)
    (a : Attribute) : Attribute :=
  match a.data with
  | .plain .Facet d rows =>
      { a with data := .plain .Facet d (order.map (fun o => rows.getD o [])) }
  | .plain .Corner d rows =>
      { a with data := .plain .Corner d (gatherCorners facets order rows) }
  | .indexed ve vd vc vals ie idt ic idxs =>
      { a with data := (.indexed ve vd vc vals ie idt ic
          (gatherCorners facets order idxs) : AttrData) }
  | _ => a

/-- Modelled from the spec: `permute_facets`.  A non-bijective order is an
`InvalidPermutation` error with no mutation.  On success facets and facet-
and corner-keyed attributes are gathered in the new order; per the spec's
connectivity lifecycle this structural edit invalidates the derived edge
connectivity, which must be explicitly rebuilt. -/
def permuteFacets (m : SurfaceMesh) (order : List ℕ) :
    Except MeshError SurfaceMesh :=
  if validPerm order m.numFacets = false then .error .InvalidPermutation
  else
    .ok { m with
            facets := order.map (fun o => m.facets.getD o [])
            attrs := m.attrs.map (fun e => (e.1, permuteFacetAttr m.facets order e.2))
            edges := none }

/-- The mesh produced by a successful facet permutation (the input mesh on
error). -/
def permuteFacetsResult (m : SurfaceMesh) (order : List ℕ) : SurfaceMesh :=
  match permuteFacets m order with
  | .ok m' => m'
  | .error _ => m

/-- Modelled from the spec: `remove_facets` removes the facets with the
given ids together with the per-facet and per-corner attribute entries at the
corresponding positions, closing gaps while preserving the relative order of
the survivors, and invalidates the derived edge connectivity.  An
out-of-range facet id is an `InvalidArgument` error with no mutation. -/
def removeFacets (m : SurfaceMesh) (ids : List ℕ) :
    Except MeshError SurfaceMesh :=
  if (ids.all (fun f => f < m.numFacets)) = false then .error .InvalidArgument
  else
    .ok { m with
            facets := ((List.range m.numFacets).filter
              (fun f => !(ids.contains f))).map (fun o => m.facets.getD o [])
            attrs := m.attrs.map (fun e => (e.1, permuteFacetAttr m.facets
              ((List.range m.numFacets).filter (fun f => !(ids.contains f))) e.2))
            edges := none }

/-- The mesh produced by a successful facet removal (the input mesh on
error). -/
def removeFacetsResult (m : SurfaceMesh) (ids : List ℕ) : SurfaceMesh :=
  match removeFacets m ids with
  | .ok m' => m'
  | .error _ => m

/-! ### Welding of indexed attributes -/

/-- Two rationals are within the absolute tolerance: `|x - y| ≤ eps`. -/
def closeVal (eps x y : ℚ) : Bool :=
  decide ((if x ≤ y then y - x else x - y) ≤ eps)

/-- Two value rows are componentwise within the absolute tolerance. -/
def closeRows (eps : ℚ) (r s : List ℚ) : Bool :=
  (r.length == s.length) && ((List.zip r s).all (fun p => closeVal eps p.1 p.2))

/-- Value-pool entries `a` and `b` are used around a common vertex (by two
corners of that vertex). -/
def usedTogether (cornerVs indices : List ℕ) (a b : ℕ) : Bool :=
  (List.range cornerVs.length).any (fun c1 =>
    (List.range cornerVs.length).any (fun c2 =>
      (cornerVs.getD c1 0 == cornerVs.getD c2 0) &&
      (indices.getD c1 0 == a) && (indices.getD c2 0 == b)))

/-- Adjacency of the weld graph on value-pool entries: used around a common
vertex and within tolerance. -/
def weldAdj (cornerVs indices : List ℕ) (vals : List (List ℚ)) (eps : ℚ)
    (a b : ℕ) : Bool :=
  usedTogether cornerVs indices a b && closeRows eps (vals.getD a []) (vals.getD b [])

/-- One step of minimum-label propagation over the weld graph. -/
def relabelStep (adj : ℕ → ℕ → Bool) (labels : List ℕ) : List ℕ :=
  (List.range labels.length).map (fun a =>
    ((List.range labels.length).filter (fun b => (a == b) || adj a b || adj b a)).foldl
      (fun acc b => min acc (labels.getD b 0)) (labels.getD a 0))

/-- Iterated label propagation; with fuel the entry count, every entry ends
up labelled by the least entry of its connected component. -/
def relabel (adj : ℕ → ℕ → Bool) : ℕ → List ℕ → List ℕ
  | 0, labels => labels
  | fuel + 1, labels => relabel adj fuel (relabelStep adj labels)

/-- The component label of every value-pool entry: each entry is labelled by
the least entry of its connected component in the weld graph. -/
def weldLabels (m : SurfaceMesh) (idxs : List ℕ) (vals : List (List ℚ))
    (eps : ℚ) : List ℕ :=
  relabel (weldAdj m.cornerVerts idxs vals eps) vals.length
    (List.range vals.length)

/-- The equivalence classes of the weld, one representative label each, in
first-encounter order. -/
def weldClasses (m : SurfaceMesh) (idxs : List ℕ) (vals : List (List ℚ))
    (eps : ℚ) : List ℕ :=
  firstDedup (weldLabels m idxs vals eps)

/-- Modelled from the spec: `weld_indexed_attribute` merges value-pool
entries that are within tolerance and used around a common vertex, taking the
connected components of that relation as the equivalence classes (the
"disconnected index-usage classes"); the new pool keeps exactly one entry per
class and the index buffer is rewritten through the class labels. -/
def weldIndexedAttribute (m : SurfaceMesh) (id : ℕ) (eps : ℚ) :
    Except MeshError SurfaceMesh :=
  match m.attrs.find? (fun e => e.1 == id) with
  | none => .error .NotFound
  | some ia =>
      match ia.2.data with
      | .plain _ _ _ => .error .InvalidArgument
      | .indexed ve vd vc vals ie idt ic idxs =>
          .ok { m with attrs := m.attrs.map (fun e =>
            if e.1 == id then
              (e.1, { e.2 with data := (AttrData.indexed ve vd vc
                ((weldClasses m idxs vals eps).map (fun l => vals.getD l []))
                ie idt ic
                (idxs.map (fun old => (weldClasses m idxs vals eps).findIdx
                  (fun l => l == (weldLabels m idxs vals eps).getD old 0)))) })
            else e) }

/-- The mesh produced by a successful weld (the input mesh on error). -/
def weldResult (m : SurfaceMesh) (id : ℕ) (eps : ℚ) : SurfaceMesh :=
  match weldIndexedAttribute m id eps with
  | .ok m' => m'
  | .error _ => m

/-- Size of the value pool of attribute `id` (zero when absent or plain). -/
def poolSize (m : SurfaceMesh) (id : ℕ) : ℕ :=
  match m.attrs.find? (fun e => e.1 == id) with
  | some ⟨_, { data := .indexed _ _ _ vals _ _ _ _, .. }⟩ => vals.length
  | _ => 0

/-- All value-pool entries of attribute `id` are pairwise beyond the
tolerance (distinct entries are never close). -/
def pairwiseFar (m : SurfaceMesh) (id : ℕ) (eps : ℚ) : Bool :=
  match m.attrs.find? (fun e => e.1 == id) with
  | some ⟨_, { data := .indexed _ _ _ vals _ _ _ _, .. }⟩ =>
      (List.range vals.length).all (fun a =>
        (List.range vals.length).all (fun b =>
          (a == b) || !closeRows eps (vals.getD a []) (vals.getD b [])))
  | _ => true

/-! ### Concrete meshes from the test fixtures -/

/-- The attribute-creation result on success (id and new mesh); the input
mesh with id 0 on error. -/
def createResult (m : SurfaceMesh) (name : String) (elem : AttributeElement)
    (usage : AttributeUsage) (numChannels : ℕ) (dtype : Dtype)
    (initValues : List (List ℚ)) (idxDtype : Dtype) (initIndices : List ℕ) :
    ℕ × SurfaceMesh :=
  match m.createAttribute name elem usage numChannels dtype initValues idxDtype initIndices with
  | .ok r => r
  | .error _ => (0, m)

/-- The 8-vertex, 6-quad cube used throughout the Python test suite. -/
def cube : SurfaceMesh where
  dim := 3
  vertices :=
    [[0, 0, 0], [1, 0, 0], [1, 1, 0], [0, 1, 0],
     [0, 0, 1], [1, 0, 1], [1, 1, 1], [0, 1, 1]]
  facets :=
    [[0, 3, 2, 1], [4, 5, 6, 7], [1, 2, 6, 5],
     [4, 7, 3, 0], [2, 3, 7, 6], [0, 1, 5, 4]]
  attrs := []
  nextId := 0
  edges := none

/-- The per-corner index buffer of the cube's uv attribute (fixture
`cube_with_uv`), flattened in facet-then-local order. -/
def cubeUvIndices : List ℕ :=
  [8, 6, 7, 9, 2, 3, 5, 4, 12, 7, 5, 13, 11, 4, 6, 10, 7, 6, 4, 5, 0, 1, 3, 2]

/-- The value pool of the cube's uv attribute (fixture `cube_with_uv`). -/
def cubeUvValues : List (List ℚ) :=
  [[1/4, 0], [1/2, 0], [1/4, 1/4], [1/2, 1/4], [1/4, 1/2], [1/2, 1/2],
   [1/4, 3/4], [1/2, 3/4], [1/4, 1], [1/2, 1], [0, 3/4], [0, 1/2],
   [3/4, 3/4], [3/4, 1/2]]

/-- The cube carrying the indexed uv attribute of fixture `cube_with_uv`. -/
def cubeWithUV : SurfaceMesh :=
  (createResult cube "uv" .Indexed .UV 2 .float64 cubeUvValues .int32 cubeUvIndices).2

/-- The id of the uv attribute on `cubeWithUV`. -/
def cubeUvId : ℕ :=
  (createResult cube "uv" .Indexed .UV 2 .float64 cubeUvValues .int32 cubeUvIndices).1

/-- The single triangle of fixture `single_triangle` (the rows of the
identity matrix as positions). -/
def singleTriangle : SurfaceMesh where
  dim := 3
  vertices := [[1, 0, 0], [0, 1, 0], [0, 0, 1]]
  facets := [[0, 1, 2]]
  attrs := []
  nextId := 0
  edges := none

/-- Fixture `single_triangle_with_index`: the triangle carrying a plain
int-typed vertex attribute `vertex_index` with values 1,2,3. -/
def triangleWithIndex : SurfaceMesh :=
  (createResult singleTriangle "vertex_index" .Vertex .Scalar 1 .int32
    [[1], [2], [3]] .int32 []).2

/-- Two triangles sharing an edge: 4 vertices, 6 corners; small enough to
evaluate the weld model by kernel reduction while distinguishing corners
from vertices. -/
def twoTriangles : SurfaceMesh where
  dim := 3
  vertices := [[0, 0, 0], [1, 0, 0], [0, 1, 0], [1, 1, 0]]
  facets := [[0, 1, 2], [2, 1, 3]]
  attrs := []
  nextId := 0
  edges := none

/-- `twoTriangles` with an indexed attribute whose six values are all equal
(one per corner, indices 0..5). -/
def twoTrianglesSame : SurfaceMesh :=
  (createResult twoTriangles "tmp" .Indexed .Scalar 1 .float64
    [[1], [1], [1], [1], [1], [1]] .int32 [0, 1, 2, 3, 4, 5]).2

/-- `twoTriangles` with an indexed attribute whose six values are pairwise
distinct beyond any small tolerance. -/
def twoTrianglesDistinct : SurfaceMesh :=
  (createResult twoTriangles "tmp" .Indexed .Scalar 1 .float64
    [[0], [10], [20], [30], [40], [50]] .int32 [0, 1, 2, 3, 4, 5]).2

/-! ### Helper lemmas -/

theorem range_map_getD {α : Type} (l : List α) (d : α) :
    (List.range l.length).map (fun k => l.getD k d) = l := by
  induction l with
  | nil => rfl
  | cons a t ih =>
      rw [List.length_cons, List.range_succ_eq_map, List.map_cons,
        List.map_map]
      simp only [List.getD_cons_zero, Function.comp]
      congr 1

theorem getD_range {v n : ℕ} (h : v < n) : (List.range n).getD v 0 = v := by
  rw [List.getD_eq_getElem?_getD, List.getElem?_range h]
  rfl

theorem filter_range_eq_single {j n : ℕ} (h : j < n) :
    (List.range n).filter (fun i => i == j) = [j] := by
  induction n with
  | zero => omega
  | succ n ih =>
      rw [List.range_succ, List.filter_append]
      by_cases hj : j = n
      · subst hj
        have h1 : (List.range j).filter (fun i => i == j) = [] := by
          rw [List.filter_eq_nil_iff]
          intro a ha
          have := List.mem_range.mp ha
          simp only [beq_iff_eq]
          omega
        rw [h1]
        simp
      · have hjn : j < n := by omega
        rw [ih hjn]
        have h2 : [n].filter (fun i => i == j) = [] := by
          simp [Ne.symm hj]
        rw [h2, List.append_nil]

theorem classMembers_range {j n : ℕ} (h : j < n) :
    classMembers (List.range n) j = [j] := by
  unfold classMembers
  rw [List.length_range]
  rw [List.filter_congr (q := fun i => i == j)
    (fun i hi => by rw [getD_range (List.mem_range.mp hi)])]
  exact filter_range_eq_single h

theorem foldl_max_range (n : ℕ) : (List.range (n + 1)).foldl max 0 = n := by
  induction n with
  | zero => rfl
  | succ n ih =>
      rw [List.range_succ, List.foldl_append, ih]
      simp [Nat.max_eq_right (Nat.le_succ n)]

theorem newCount_range (n : ℕ) : newCount (List.range n) = n := by
  cases n with
  | zero => rfl
  | succ n =>
      unfold newCount
      rw [if_neg, foldl_max_range]
      simp [List.isEmpty_iff, List.range_succ]

theorem validMapping_range (n : ℕ) : validMapping (List.range n) = true := by
  unfold validMapping
  rw [newCount_range, List.all_eq_true]
  intro j hj
  simpa using hj

theorem avg_singleton (x : ℚ) : avg [x] = x := by
  unfold avg
  simp

theorem combineRows_singleton (pol : CollisionPolicy) (ch : ℕ) (r : List ℚ)
    (h : r.length = ch) : combineRows pol ch [r] = .ok r := by
  cases pol with
  | KeepFirst => rfl
  | Average =>
      unfold combineRows
      have hk : ∀ k, avg ([r].map (fun s => s.getD k 0)) = r.getD k 0 := by
        intro k
        rw [List.map_singleton, avg_singleton]
      simp only [hk]
      rw [← h]
      exact congrArg Except.ok (range_map_getD r 0)
  | Error =>
      unfold combineRows
      rw [if_pos]
      · rfl
      · simp

theorem collectOk_map_ok {ε α β : Type} (l : List α) (f : α → Except ε β)
    (g : α → β) (h : ∀ x ∈ l, f x = .ok (g x)) :
    collectOk (l.map f) = .ok (l.map g) := by
  induction l with
  | nil => rfl
  | cons a t ih =>
      rw [List.map_cons, List.map_cons]
      rw [h a (List.mem_cons_self a t)]
      unfold collectOk
      rw [ih (fun x hx => h x (List.mem_cons_of_mem a hx))]
      rfl

theorem getD_mem {α : Type} {l : List α} {i : ℕ} (d : α) (h : i < l.length) :
    l.getD i d ∈ l := by
  rw [List.getD_eq_getElem l d h]
  exact List.getElem_mem h

theorem remapRows_id (pol : CollisionPolicy) (ch n : ℕ) (rows : List (List ℚ))
    (hlen : rows.length = n) (hch : ∀ r ∈ rows, r.length = ch) :
    remapRows pol ch (List.range n) n rows = .ok rows := by
  unfold remapRows
  rw [collectOk_map_ok (g := fun j => rows.getD j [])]
  · rw [show (List.range n).map (fun j => rows.getD j []) =
        (List.range rows.length).map (fun j => rows.getD j []) by rw [hlen]]
    rw [range_map_getD]
  · intro j hj
    have hjn : j < n := List.mem_range.mp hj
    rw [classMembers_range hjn, List.map_singleton]
    exact combineRows_singleton pol ch _ (hch _ (getD_mem [] (by omega)))

theorem remapFacets_id (n : ℕ) (facets : List (List ℕ))
    (hb : ∀ f ∈ facets, ∀ v ∈ f, v < n) :
    remapFacets (List.range n) facets = facets := by
  unfold remapFacets
  have h1 : ∀ f ∈ facets, f.map (fun v => (List.range n).getD v 0) = f := by
    intro f hf
    have h2 : ∀ v ∈ f, (List.range n).getD v 0 = v := fun v hv =>
      getD_range (hb f hf v hv)
    rw [List.map_congr_left h2, List.map_id']
  rw [List.map_congr_left h1, List.map_id']

theorem remapAttrEntry_id (opts : RemapOptions) (n id : ℕ) (a : Attribute)
    (hwf : ∀ elem dtype rows, a.data = .plain elem dtype rows →
      elem = .Vertex → rows.length = n ∧ ∀ r ∈ rows, r.length = a.numChannels) :
    remapAttrEntry opts (List.range n) n (id, a) = .ok (id, a) := by
  rcases a with ⟨nm, us, ch, data⟩
  cases data with
  | plain elem dtype rows =>
      cases elem with
      | Vertex =>
          have h := hwf .Vertex dtype rows rfl rfl
          unfold remapAttrEntry
          simp only []
          rw [remapRows_id _ _ _ _ h.1 h.2]
          rfl
      | Facet => rfl
      | Edge => rfl
      | Corner => rfl
      | Value => rfl
      | Indexed => rfl
  | indexed ve vd vc vals ie idt ic idxs => rfl

/-- C1: remapping the vertices of any well-formed mesh with the identity
mapping succeeds and leaves the vertex count, the vertex positions, the facet
connectivity, and every attribute byte-for-byte unchanged (only the derived
edge connectivity cache is reset). -/
theorem remap_vertices_identity_unchanged (opts : RemapOptions)
    (m : SurfaceMesh) (h : m.wfB = true) :
    remapVertices opts m (List.range m.numVertices) =
      .ok { m with edges := none } := by
  unfold SurfaceMesh.wfB at h
  rw [Bool.and_eq_true, Bool.and_eq_true, Bool.and_eq_true] at h
  obtain ⟨⟨⟨hv, hf⟩, hattr⟩, -⟩ := h
  have hv' : ∀ r ∈ m.vertices, r.length = m.dim := by
    intro r hr
    have := List.all_eq_true.mp hv r hr
    simpa using this
  have hfb : ∀ f ∈ m.facets, ∀ v ∈ f, v < m.numVertices := by
    intro f hf' v hvf
    have h1 := List.all_eq_true.mp hf f hf'
    have h2 := List.all_eq_true.mp h1 v hvf
    simpa using h2
  have hae : ∀ e ∈ m.attrs,
      remapAttrEntry opts (List.range m.numVertices) m.numVertices e = .ok e := by
    intro e he
    obtain ⟨id, a⟩ := e
    apply remapAttrEntry_id
    intro elem dtype rows hdata helem
    subst helem
    have hpred := List.all_eq_true.mp hattr (id, a) he
    simp only [hdata] at hpred
    unfold SurfaceMesh.elemCount at hpred
    rw [Bool.and_eq_true] at hpred
    refine ⟨by simpa using hpred.1, fun r hr => ?_⟩
    have h3 := List.all_eq_true.mp hpred.2 r hr
    simpa using h3
  unfold remapVertices
  rw [if_neg (show ¬((List.range m.numVertices).length ≠ m.numVertices) by simp)]
  rw [if_neg (show ¬(validMapping (List.range m.numVertices) = false) by
    rw [validMapping_range]; simp)]
  rw [newCount_range]
  rw [remapRows_id opts.collisionPolicyFloat m.dim m.numVertices m.vertices rfl hv']
  rw [collectOk_map_ok m.attrs
    (remapAttrEntry opts (List.range m.numVertices) m.numVertices)
    (fun e => e) hae]
  rw [List.map_id']
  rw [remapFacets_id m.numVertices m.facets hfb]

/-- Witness for C1 at the cube of the test fixtures. -/
theorem remap_vertices_identity_unchanged_witness :
    cube.wfB = true ∧
      remapVertices defaultRemapOptions cube (List.range cube.numVertices) =
        .ok { cube with edges := none } :=
  ⟨by decide, remap_vertices_identity_unchanged defaultRemapOptions cube (by decide)⟩

/-- C2: a mapping of the right length whose set of values is not the full
contiguous range `0..newCount-1` (some target id is skipped) makes
`remap_vertices` fail with `InvalidMapping`, and no mesh is produced: the
input mesh is unchanged. -/
theorem remap_vertices_gap_invalid_mapping (opts : RemapOptions)
    (m : SurfaceMesh) (mapping : List ℕ)
    (hlen : mapping.length = m.numVertices)
    (hgap : ¬ ∀ j ∈ List.range (newCount mapping), j ∈ mapping) :
    remapVertices opts m mapping = .error .InvalidMapping ∧
      ∀ m' : SurfaceMesh, ¬ remapVertices opts m mapping = .ok m' := by
  have hvm : validMapping mapping = false := by
    rcases Bool.eq_false_or_eq_true (validMapping mapping) with h | h
    · exfalso
      apply hgap
      intro j hj
      have hc := List.all_eq_true.mp h j hj
      simpa using hc
    · exact h
  have herr : remapVertices opts m mapping = .error .InvalidMapping := by
    unfold remapVertices
    rw [if_neg (by rw [hlen]; exact fun hne => hne rfl)]
    rw [if_pos hvm]
  refine ⟨herr, fun m' hok => ?_⟩
  rw [herr] at hok
  cases hok

/-- Witness for C2: the mapping `[0,0,0,0,1,1,1,3]` of the test suite skips
id 2 of the target range `0..3` on the cube. -/
theorem remap_vertices_gap_invalid_mapping_witness :
    ([0, 0, 0, 0, 1, 1, 1, 3] : List ℕ).length = cube.numVertices ∧
      2 ∈ List.range (newCount [0, 0, 0, 0, 1, 1, 1, 3]) ∧
      (2 : ℕ) ∉ ([0, 0, 0, 0, 1, 1, 1, 3] : List ℕ) ∧
      remapVertices defaultRemapOptions cube [0, 0, 0, 0, 1, 1, 1, 3] =
        .error .InvalidMapping :=
  ⟨by decide, by decide, by decide,
    (remap_vertices_gap_invalid_mapping defaultRemapOptions cube
      [0, 0, 0, 0, 1, 1, 1, 3] (by decide) (by decide)).1⟩

/-! ### C3: indexed attributes survive remap -/

/-- Whether an attribute entry is an indexed attribute. -/
def isIndexedEntry (e : ℕ × Attribute) : Bool :=
  match e.2.data with
  | .indexed _ _ _ _ _ _ _ _ => true
  | .plain _ _ _ => false

/-- The indexed attributes of a mesh, in creation order. -/
def indexedAttrs (m : SurfaceMesh) : List (ℕ × Attribute) :=
  m.attrs.filter isIndexedEntry

theorem collectOk_forall₂ {ε α β : Type} (l : List α) (f : α → Except ε β)
    (l' : List β) (h : collectOk (l.map f) = .ok l') :
    List.Forall₂ (fun a b => f a = .ok b) l l' := by
  induction l generalizing l' with
  | nil =>
      rw [List.map_nil] at h
      cases h
      exact .nil
  | cons a t ih =>
      rw [List.map_cons] at h
      cases hfa : f a with
      | error e =>
          rw [hfa] at h
          unfold collectOk at h
          cases h
      | ok b =>
          rw [hfa] at h
          unfold collectOk at h
          cases hrest : collectOk (t.map f) with
          | error e =>
              rw [hrest] at h
              cases h
          | ok tl =>
              rw [hrest] at h
              cases h
              exact .cons hfa (ih tl hrest)

theorem remapAttrEntry_preserves (opts : RemapOptions) (mapping : List ℕ)
    (nc : ℕ) (a b : ℕ × Attribute)
    (h : remapAttrEntry opts mapping nc a = .ok b) :
    isIndexedEntry b = isIndexedEntry a ∧ (isIndexedEntry a = true → b = a) := by
  obtain ⟨id, a'⟩ := a
  rcases a' with ⟨nm, us, ch, data⟩
  cases data with
  | plain elem dtype rows =>
      cases elem with
      | Vertex =>
          unfold remapAttrEntry at h
          simp only [] at h
          cases hr : remapRows (policyFor opts dtype) ch mapping nc rows with
          | error e => rw [hr] at h; cases h
          | ok rows' =>
              rw [hr] at h
              cases h
              exact ⟨rfl, fun hc => by simp [isIndexedEntry] at hc⟩
      | Facet => cases h; exact ⟨rfl, fun _ => rfl⟩
      | Edge => cases h; exact ⟨rfl, fun _ => rfl⟩
      | Corner => cases h; exact ⟨rfl, fun _ => rfl⟩
      | Value => cases h; exact ⟨rfl, fun _ => rfl⟩
      | Indexed => cases h; exact ⟨rfl, fun _ => rfl⟩
  | indexed ve vd vc vals ie idt ic idxs =>
      cases h
      exact ⟨rfl, fun _ => rfl⟩

theorem filter_eq_of_forall₂ {α : Type} (p : α → Bool) (l l' : List α)
    (h : List.Forall₂ (fun a b => p b = p a ∧ (p a = true → b = a)) l l') :
    l'.filter p = l.filter p := by
  induction h with
  | nil => rfl
  | @cons a b t t' hab htail ih =>
      rcases hab with ⟨hp, heq⟩
      rw [List.filter_cons, List.filter_cons, hp]
      cases hpa : p a with
      | true =>
          rw [heq hpa, ih]
      | false =>
          simpa using ih

/-- C3: a successful `remap_vertices` (any valid mapping, in particular one
that merges vertices) leaves every indexed attribute — its value pool and its
per-corner index buffer — exactly unchanged. -/
theorem remap_vertices_keeps_indexed_attrs (opts : RemapOptions)
    (m : SurfaceMesh) (mapping : List ℕ) (m' : SurfaceMesh)
    (h : remapVertices opts m mapping = .ok m') :
    indexedAttrs m' = indexedAttrs m := by
  unfold remapVertices at h
  by_cases h1 : mapping.length ≠ m.numVertices
  · rw [if_pos h1] at h; cases h
  · rw [if_neg h1] at h
    by_cases h2 : validMapping mapping = false
    · rw [if_pos h2] at h; cases h
    · rw [if_neg h2] at h
      cases hv : remapRows opts.collisionPolicyFloat m.dim mapping (newCount mapping) m.vertices with
      | error e => rw [hv] at h; cases h
      | ok v' =>
          rw [hv] at h
          cases ha : collectOk (m.attrs.map (remapAttrEntry opts mapping (newCount mapping))) with
          | error e => rw [ha] at h; cases h
          | ok a' =>
              rw [ha] at h
              cases h
              unfold indexedAttrs
              apply filter_eq_of_forall₂
              have hfa := collectOk_forall₂ _ _ _ ha
              exact List.Forall₂.imp (fun a b hab =>
                remapAttrEntry_preserves opts mapping (newCount mapping) a b hab) hfa

/-- Witness for C3 at the cube with uv of the test fixtures, using the
merging mapping `[0,0,0,0,1,2,3,4]` of the test suite. -/
theorem remap_vertices_keeps_indexed_attrs_witness :
    remapVertices defaultRemapOptions cubeWithUV [0, 0, 0, 0, 1, 2, 3, 4] =
        .ok (remapResult defaultRemapOptions cubeWithUV [0, 0, 0, 0, 1, 2, 3, 4]) ∧
      indexedAttrs (remapResult defaultRemapOptions cubeWithUV [0, 0, 0, 0, 1, 2, 3, 4]) =
        indexedAttrs cubeWithUV :=
  ⟨by with_unfolding_all decide,
    remap_vertices_keeps_indexed_attrs defaultRemapOptions cubeWithUV
      [0, 0, 0, 0, 1, 2, 3, 4]
      (remapResult defaultRemapOptions cubeWithUV [0, 0, 0, 0, 1, 2, 3, 4])
      (by with_unfolding_all decide)⟩

/-! ### C4: connectivity invalidation -/

/-- C4 counterexample: the claim says every structural edit, in particular a
vertex permutation, invalidates the edge connectivity so that any
connectivity-dependent query before re-initialization fails with
`StateError`.  On the cube with initialized edges, the reversing
`permute_vertices` of the test suite succeeds, the result still has edges,
and a corner-around-vertex query answers `.ok 3` instead of failing —
exactly what `test_permute_vertices.py::test_with_uv` asserts. -/
theorem permute_vertices_keeps_edges_counterexample :
    permuteVertices cube.initEdges [7, 6, 5, 4, 3, 2, 1, 0] =
        .ok (permuteVerticesResult cube.initEdges [7, 6, 5, 4, 3, 2, 1, 0]) ∧
      (permuteVerticesResult cube.initEdges [7, 6, 5, 4, 3, 2, 1, 0]).hasEdges = true ∧
      (permuteVerticesResult cube.initEdges [7, 6, 5, 4, 3, 2, 1, 0]).countCornersAroundVertex 0 =
        .ok 3 ∧
      ¬ (permuteVerticesResult cube.initEdges [7, 6, 5, 4, 3, 2, 1, 0]).countCornersAroundVertex 0 =
          .error .StateError := by
  refine ⟨by decide, by decide, by decide, by decide⟩

/-- C4 (amended): the structural edits `remap_vertices`, `permute_facets`
and `remove_facets` invalidate the edge connectivity (the result carries
none), so it must be explicitly rebuilt, and a mesh without initialized
connectivity answers every connectivity-dependent query with a loud
`StateError`; but `permute_vertices` keeps an initialized connectivity valid
(rewritten in lockstep) instead of invalidating it. -/
theorem connectivity_invalidation_amended :
    (∀ (opts : RemapOptions) (m m' : SurfaceMesh) (mapping : List ℕ),
        remapVertices opts m mapping = .ok m' → m'.edges = none) ∧
    (∀ (m m' : SurfaceMesh) (order : List ℕ),
        permuteFacets m order = .ok m' → m'.edges = none) ∧
    (∀ (m m' : SurfaceMesh) (ids : List ℕ),
        removeFacets m ids = .ok m' → m'.edges = none) ∧
    (∀ (m : SurfaceMesh) (e v : ℕ), m.edges = none →
        m.countCornersAroundEdge e = .error .StateError ∧
        m.countCornersAroundVertex v = .error .StateError) ∧
    (∀ (m m' : SurfaceMesh) (order : List ℕ),
        permuteVertices m order = .ok m' → m'.hasEdges = m.hasEdges) := by
  refine ⟨?_, ?_, ?_, ?_, ?_⟩
  · intro opts m m' mapping h
    unfold remapVertices at h
    by_cases h1 : mapping.length ≠ m.numVertices
    · rw [if_pos h1] at h; cases h
    · rw [if_neg h1] at h
      by_cases h2 : validMapping mapping = false
      · rw [if_pos h2] at h; cases h
      · rw [if_neg h2] at h
        cases hv : remapRows opts.collisionPolicyFloat m.dim mapping (newCount mapping) m.vertices with
        | error e => rw [hv] at h; cases h
        | ok v' =>
            rw [hv] at h
            cases ha : collectOk (m.attrs.map (remapAttrEntry opts mapping (newCount mapping))) with
            | error e => rw [ha] at h; cases h
            | ok a' =>
                rw [ha] at h
                cases h
                rfl
  · intro m m' order h
    unfold permuteFacets at h
    by_cases hv : validPerm order m.numFacets = false
    · rw [if_pos hv] at h; cases h
    · rw [if_neg hv] at h
      cases h
      rfl
  · intro m m' ids h
    unfold removeFacets at h
    by_cases hb : (ids.all (fun f => f < m.numFacets)) = false
    · rw [if_pos hb] at h; cases h
    · rw [if_neg hb] at h
      cases h
      rfl
  · intro m e v h
    unfold SurfaceMesh.countCornersAroundEdge SurfaceMesh.countCornersAroundVertex
    rw [h]
    exact ⟨rfl, rfl⟩
  · intro m m' order h
    unfold permuteVertices at h
    by_cases hv : validPerm order m.numVertices = false
    · rw [if_pos hv] at h; cases h
    · rw [if_neg hv] at h
      cases h
      unfold SurfaceMesh.hasEdges
      simp

/-- Witness for the amended C4 at the cube: an identity remap, the facet
permutation of the test suite and a one-facet removal all drop the edge
connectivity even when it was initialized, queries on a mesh without edges
fail with `StateError`, and the reversing vertex permute keeps `has_edges`. -/
theorem connectivity_invalidation_amended_witness :
    (remapResult defaultRemapOptions cube (List.range 8)).edges = none ∧
      (permuteFacetsResult cube.initEdges [3, 2, 1, 0, 5, 4]).edges = none ∧
      (removeFacetsResult cube.initEdges [0]).edges = none ∧
      cube.countCornersAroundEdge 0 = .error .StateError ∧
      cube.countCornersAroundVertex 0 = .error .StateError ∧
      (permuteVerticesResult cube.initEdges [7, 6, 5, 4, 3, 2, 1, 0]).hasEdges =
        cube.initEdges.hasEdges :=
  ⟨connectivity_invalidation_amended.1 defaultRemapOptions cube
      (remapResult defaultRemapOptions cube (List.range 8)) (List.range 8)
      (by with_unfolding_all decide),
    connectivity_invalidation_amended.2.1 cube.initEdges
      (permuteFacetsResult cube.initEdges [3, 2, 1, 0, 5, 4])
      [3, 2, 1, 0, 5, 4] (by decide),
    connectivity_invalidation_amended.2.2.1 cube.initEdges
      (removeFacetsResult cube.initEdges [0]) [0] (by decide),
    (connectivity_invalidation_amended.2.2.2.1 cube 0 0 rfl).1,
    (connectivity_invalidation_amended.2.2.2.1 cube 0 0 rfl).2,
    connectivity_invalidation_amended.2.2.2.2 cube.initEdges
      (permuteVerticesResult cube.initEdges [7, 6, 5, 4, 3, 2, 1, 0])
      [7, 6, 5, 4, 3, 2, 1, 0] (by decide)⟩

/-! ### C6: invalid permutations -/

theorem perm_of_validPerm {order : List ℕ} {n : ℕ}
    (h : validPerm order n = true) : order.Perm (List.range n) := by
  unfold validPerm at h
  rw [Bool.and_eq_true] at h
  obtain ⟨hlen, hall⟩ := h
  have hlen' : order.length = n := by simpa using hlen
  have hsub : (List.range n) ⊆ order := by
    intro j hj
    have hc := List.all_eq_true.mp hall j hj
    simpa using hc
  have hsp : List.Subperm (List.range n) order := (List.nodup_range n).subperm hsub
  exact (hsp.perm_of_length_le (by rw [hlen', List.length_range])).symm

/-- C6: `permute_vertices` and `permute_facets` fail with
`InvalidPermutation` whenever `order` is not a bijection of `0..count-1`
(i.e. not a permutation of the id range); the operation returns only the
error, producing no mesh, so the input mesh is unchanged. -/
theorem permute_non_bijective_invalid (m : SurfaceMesh) (order : List ℕ) :
    (¬ order.Perm (List.range m.numVertices) →
      permuteVertices m order = .error .InvalidPermutation) ∧
    (¬ order.Perm (List.range m.numFacets) →
      permuteFacets m order = .error .InvalidPermutation) := by
  constructor
  · intro hnp
    unfold permuteVertices
    rw [if_pos]
    rcases Bool.eq_false_or_eq_true (validPerm order m.numVertices) with h | h
    · exact absurd (perm_of_validPerm h) hnp
    · exact h
  · intro hnp
    unfold permuteFacets
    rw [if_pos]
    rcases Bool.eq_false_or_eq_true (validPerm order m.numFacets) with h | h
    · exact absurd (perm_of_validPerm h) hnp
    · exact h

/-- Witness for C6: the duplicated orders of the test suite on the cube. -/
theorem permute_non_bijective_invalid_witness :
    (¬ ([0, 1, 2, 3, 4, 5, 6, 0] : List ℕ).Perm (List.range cube.numVertices)) ∧
      permuteVertices cube [0, 1, 2, 3, 4, 5, 6, 0] = .error .InvalidPermutation ∧
      (¬ ([0, 2, 1, 0, 5, 4] : List ℕ).Perm (List.range cube.numFacets)) ∧
      permuteFacets cube [0, 2, 1, 0, 5, 4] = .error .InvalidPermutation :=
  ⟨by decide,
    (permute_non_bijective_invalid cube [0, 1, 2, 3, 4, 5, 6, 0]).1 (by decide),
    by decide,
    (permute_non_bijective_invalid cube [0, 2, 1, 0, 5, 4]).2 (by decide)⟩

/-! ### C7: cube connectivity -/

/-- C7: initializing edges on the closed manifold cube (8 vertices, 6 quads)
yields exactly 12 edges, every edge has exactly 2 incident corners, and no
edge is a boundary edge. -/
theorem cube_edges_closed_manifold :
    cube.initEdges.numEdges = 12 ∧
      ((List.range 12).all (fun e =>
        decide (cube.initEdges.countCornersAroundEdge e = .ok 2) &&
        decide (cube.initEdges.isBoundaryEdge e = .ok false))) = true := by
  constructor
  · decide
  · decide

/-! ### C8: deleted attributes fail loudly -/

/-- The mesh produced by a successful attribute deletion (the input mesh on
error). -/
def deleteResult (m : SurfaceMesh) (name : String) : SurfaceMesh :=
  match m.deleteAttribute name with
  | .ok m' => m'
  | .error _ => m

/-- C8: after `delete_attribute`, any access through a previously obtained
handle (the attribute id handed out by the lookup) fails with `NotFound`; it
never returns the stale attribute. -/
theorem delete_attribute_invalidates_handles (m m' : SurfaceMesh)
    (name : String) (id : ℕ) (hid : m.getAttributeId name = .ok id)
    (hdel : m.deleteAttribute name = .ok m') :
    m'.attributeById id = .error .NotFound := by
  unfold SurfaceMesh.getAttributeId at hid
  unfold SurfaceMesh.deleteAttribute at hdel
  cases hfind : m.attrs.find? (fun e => e.2.name == name) with
  | none =>
      rw [hfind] at hid
      cases hid
  | some e =>
      rw [hfind] at hid hdel
      cases hid
      cases hdel
      unfold SurfaceMesh.attributeById
      have hnone : (m.attrs.filter (fun e' => e'.1 != e.1)).find?
          (fun e' => e'.1 == e.1) = none := by
        apply List.find?_eq_none.mpr
        intro x hx
        have hm := List.mem_filter.mp hx
        simp only [bne_iff_ne, ne_eq, decide_eq_true_iff] at hm
        simp only [beq_iff_eq]
        exact hm.2
      rw [hnone]

/-- Witness for C8 at the triangle with a `vertex_index` attribute. -/
theorem delete_attribute_invalidates_handles_witness :
    triangleWithIndex.getAttributeId "vertex_index" = .ok 0 ∧
      triangleWithIndex.deleteAttribute "vertex_index" =
        .ok (deleteResult triangleWithIndex "vertex_index") ∧
      (deleteResult triangleWithIndex "vertex_index").attributeById 0 =
        .error .NotFound :=
  ⟨by decide, by decide,
    delete_attribute_invalidates_handles triangleWithIndex
      (deleteResult triangleWithIndex "vertex_index") "vertex_index" 0
      (by decide) (by decide)⟩

/-! ### C9: attribute filtering semantics -/

/-- C9: filtering with an empty allow-list of usages or element types
matches no attribute at all, while an allow-list with one usage (or element
type) matches exactly the attributes carrying that usage (or element type);
checked both in general and on the cube-with-uv fixture. -/
theorem filter_attributes_semantics :
    (∀ (m : SurfaceMesh) (name : String),
        (filterAttributes m (some []) none).hasAttribute name = false) ∧
      (∀ (m : SurfaceMesh) (name : String),
        (filterAttributes m none (some [])).hasAttribute name = false) ∧
      (∀ (m : SurfaceMesh) (u : AttributeUsage) (name : String),
        (filterAttributes m (some [u]) none).hasAttribute name =
          m.attrs.any (fun e => (e.2.usage == u) && (e.2.name == name))) ∧
      (∀ (m : SurfaceMesh) (t : AttributeElement) (name : String),
        (filterAttributes m none (some [t])).hasAttribute name =
          m.attrs.any (fun e => (attrElemOf e.2 == t) && (e.2.name == name))) ∧
      (filterAttributes cubeWithUV (some []) none).hasAttribute "uv" = false ∧
      (filterAttributes cubeWithUV (some [.UV]) none).hasAttribute "uv" = true ∧
      (filterAttributes cubeWithUV none (some [])).hasAttribute "uv" = false ∧
      (filterAttributes cubeWithUV none (some [.Indexed])).hasAttribute "uv" = true := by
  refine ⟨?_, ?_, ?_, ?_, by decide, by decide, by decide, by decide⟩
  · intro m name
    unfold filterAttributes SurfaceMesh.hasAttribute
    simp [matchesOpt]
  · intro m name
    unfold filterAttributes SurfaceMesh.hasAttribute
    simp [matchesOpt]
  · intro m u name
    unfold filterAttributes SurfaceMesh.hasAttribute
    simp only [List.any_filter, matchesOpt]
    congr 1
    funext e
    simp only [List.elem_cons, Bool.and_comm]
    cases hu : e.2.usage == u <;> simp [hu]
  · intro m t name
    unfold filterAttributes SurfaceMesh.hasAttribute
    simp only [List.any_filter, matchesOpt]
    congr 1
    funext e
    simp only [List.elem_cons, Bool.and_comm]
    cases ht : attrElemOf e.2 == t <;> simp [ht]

/-! ### C10: layout of created indexed attributes -/

/-- Element type, dtype and channel count of the indices sub-attribute of
attribute `id` (none when absent or plain). -/
def idxMetaOf (m : SurfaceMesh) (id : ℕ) :
    Option (AttributeElement × Dtype × ℕ) :=
  match m.attributeById id with
  | .ok { data := .indexed _ _ _ _ ie idt ic _, .. } => some (ie, idt, ic)
  | _ => none

/-- Element type, dtype and channel count of the values sub-attribute of
attribute `id` (none when absent or plain). -/
def valMetaOf (m : SurfaceMesh) (id : ℕ) :
    Option (AttributeElement × Dtype × ℕ) :=
  match m.attributeById id with
  | .ok { data := .indexed ve vd vc _ _ _ _ _, .. } => some (ve, vd, vc)
  | _ => none

/-- Channel count of attribute `id` (none when absent). -/
def channelsOf (m : SurfaceMesh) (id : ℕ) : Option ℕ :=
  match m.attributeById id with
  | .ok a => some a.numChannels
  | .error _ => none

/-- The mesh of the counterexample below: the cube with a freshly created
2-channel indexed uv-style attribute. -/
def cubeUV2 : SurfaceMesh :=
  (createResult cube "uv2" .Indexed .UV 2 .float64 cubeUvValues .int64 cubeUvIndices).2

/-- C10 counterexample: on a 2-channel indexed attribute the indices
sub-attribute does not keep the attribute's channel count: it always has
exactly one channel (one index per corner), so "both sub-buffers keep one
channel per the attribute's channel count" fails. -/
theorem create_indexed_two_channel_counterexample :
    cube.createAttribute "uv2" .Indexed .UV 2 .float64 cubeUvValues .int64 cubeUvIndices =
        .ok (0, cubeUV2) ∧
      channelsOf cubeUV2 0 = some 2 ∧
      idxMetaOf cubeUV2 0 = some (.Corner, .uint32, 1) ∧
      ¬ (idxMetaOf cubeUV2 0).map (fun meta => meta.2.2) = some 2 := by
  refine ⟨by with_unfolding_all decide, by decide, by decide, by decide⟩

/-- C10 (amended): for every indexed attribute created on a mesh whose ids
are below the fresh-id counter, the indices sub-attribute is stored with
element type `Corner`, exactly one channel and dtype uint32 regardless of the
integer dtype of the supplied indices; the values sub-attribute is stored
with element type `Value`, keeping the supplied dtype and the attribute's
channel count. -/
theorem create_indexed_attribute_layout (m m' : SurfaceMesh) (name : String)
    (usage : AttributeUsage) (ch : ℕ) (vdt : Dtype) (vals : List (List ℚ))
    (idt : Dtype) (idxs : List ℕ) (id : ℕ)
    (hwfid : m.attrs.all (fun e => e.1 < m.nextId) = true)
    (h : m.createAttribute name .Indexed usage ch vdt vals idt idxs = .ok (id, m')) :
    idxMetaOf m' id = some (.Corner, .uint32, 1) ∧
      valMetaOf m' id = some (.Value, vdt, ch) ∧
      channelsOf m' id = some ch := by
  unfold SurfaceMesh.createAttribute at h
  by_cases hdup : m.hasAttribute name
  · rw [if_pos hdup] at h; cases h
  · rw [if_neg hdup] at h
    simp only [] at h
    cases h
    have hfind : (m.attrs ++ [(m.nextId,
        ({ name := name, usage := usage, numChannels := ch,
           data := .indexed .Value vdt ch vals .Corner .uint32 1
             (idxs.map (fun i => i % 2 ^ 32)) } : Attribute))]).find?
          (fun e => e.1 == m.nextId) =
        some (m.nextId,
          ({ name := name, usage := usage, numChannels := ch,
             data := .indexed .Value vdt ch vals .Corner .uint32 1
               (idxs.map (fun i => i % 2 ^ 32)) } : Attribute)) := by
      rw [List.find?_append]
      have h1 : m.attrs.find? (fun e => e.1 == m.nextId) = none := by
        apply List.find?_eq_none.mpr
        intro x hx
        have hlt := List.all_eq_true.mp hwfid x hx
        simp only [decide_eq_true_iff] at hlt
        simp only [beq_iff_eq]
        omega
      rw [h1, List.find?_cons_of_pos _ (by simp)]
      rfl
    unfold idxMetaOf valMetaOf channelsOf SurfaceMesh.attributeById
    rw [hfind]
    exact ⟨rfl, rfl, rfl⟩

/-- Witness for the amended C10: creating the 2-channel uv attribute on the
cube. -/
theorem create_indexed_attribute_layout_witness :
    cube.createAttribute "uv2" .Indexed .UV 2 .float64 cubeUvValues .int64 cubeUvIndices =
        .ok (0, cubeUV2) ∧
      idxMetaOf cubeUV2 0 = some (.Corner, .uint32, 1) ∧
      valMetaOf cubeUV2 0 = some (.Value, .float64, 2) ∧
      channelsOf cubeUV2 0 = some 2 :=
  ⟨by with_unfolding_all decide,
    create_indexed_attribute_layout cube cubeUV2 "uv2" .UV 2 .float64
      cubeUvValues .int64 cubeUvIndices 0 (by decide) (by with_unfolding_all decide)⟩

/-! ### C5: welding an indexed attribute -/

theorem firstDedup_aux {α : Type} [DecidableEq α] (l : List α) :
    ∀ acc : List α, l.Nodup → (∀ x ∈ l, x ∉ acc) →
      l.foldl (fun acc x => if x ∈ acc then acc else acc ++ [x]) acc = acc ++ l := by
  induction l with
  | nil => intro acc _ _; simp
  | cons a t ih =>
      intro acc hd hdisj
      rw [List.foldl_cons, if_neg (hdisj a (List.mem_cons_self a t))]
      rw [ih (acc ++ [a]) (List.Nodup.of_cons hd) ?_]
      · rw [List.append_assoc, List.singleton_append]
      · intro x hx
        rw [List.mem_append, List.mem_singleton]
        push_neg
        refine ⟨hdisj x (List.mem_cons_of_mem a hx), ?_⟩
        intro hxa
        subst hxa
        exact (List.nodup_cons.mp hd).1 hx

theorem firstDedup_of_nodup {α : Type} [DecidableEq α] {l : List α}
    (h : l.Nodup) : firstDedup l = l := by
  unfold firstDedup
  rw [firstDedup_aux l [] h (by simp), List.nil_append]

theorem relabelStep_id (adj : ℕ → ℕ → Bool) (m : ℕ)
    (hadj : ∀ a b, a < m → b < m → a ≠ b → adj a b = false) :
    relabelStep adj (List.range m) = List.range m := by
  unfold relabelStep
  rw [List.length_range]
  have hfun : ∀ a ∈ List.range m,
      ((List.range m).filter (fun b => (a == b) || adj a b || adj b a)).foldl
        (fun acc b => min acc ((List.range m).getD b 0))
        ((List.range m).getD a 0) = a := by
    intro a ha
    have ham : a < m := List.mem_range.mp ha
    have hpred : ∀ b ∈ List.range m,
        ((a == b) || adj a b || adj b a) = (b == a) := by
      intro b hb
      have hbm : b < m := List.mem_range.mp hb
      by_cases hab : a = b
      · subst hab
        simp
      · rw [hadj a b ham hbm hab, hadj b a hbm ham (Ne.symm hab)]
        have h1 : (a == b) = false := by simpa using hab
        have h2 : (b == a) = false := by simpa using (Ne.symm hab)
        rw [h1, h2]
        rfl
    rw [List.filter_congr hpred, filter_range_eq_single ham]
    rw [List.foldl_cons, List.foldl_nil, getD_range ham]
    exact min_self a
  rw [List.map_congr_left hfun, List.map_id']

theorem relabel_id (adj : ℕ → ℕ → Bool) (m : ℕ) (fuel : ℕ)
    (hadj : ∀ a b, a < m → b < m → a ≠ b → adj a b = false) :
    relabel adj fuel (List.range m) = List.range m := by
  induction fuel with
  | zero => rfl
  | succ n ih =>
      show relabel adj n (relabelStep adj (List.range m)) = List.range m
      rw [relabelStep_id adj m hadj]
      exact ih

theorem find?_map_setData (l : List (ℕ × Attribute)) (id : ℕ) (d : AttrData) :
    (l.map (fun e => if e.1 == id then (e.1, { e.2 with data := d }) else e)).find?
        (fun e => e.1 == id) =
      (l.find? (fun e => e.1 == id)).map
        (fun e => if e.1 == id then (e.1, { e.2 with data := d }) else e) := by
  induction l with
  | nil => rfl
  | cons x t ih =>
      rw [List.map_cons]
      rw [List.find?_cons, List.find?_cons]
      by_cases hc : (x.1 == id) = true
      · have hx : x.1 = id := by simpa using hc
        simp [hx]
      · simp only [Bool.not_eq_true] at hc
        simpa [hc] using ih

/-- C5: welding an indexed attribute whose value-pool entries are pairwise
beyond the tolerance leaves the value-pool size unchanged (no over-merging);
and on the two-triangle mesh whose six per-corner values are all identical
within tolerance, welding collapses the pool to one entry per disconnected
index-usage class — one per vertex (4), not one per corner (6). -/
theorem weld_indexed_attribute_pool_size :
    (∀ (m m' : SurfaceMesh) (id : ℕ) (eps : ℚ),
        weldIndexedAttribute m id eps = .ok m' →
        pairwiseFar m id eps = true →
        poolSize m' id = poolSize m id) ∧
      poolSize (weldResult twoTrianglesSame 0 0) 0 = twoTrianglesSame.numVertices ∧
      twoTrianglesSame.numVertices = 4 ∧
      twoTrianglesSame.numCorners = 6 ∧
      poolSize twoTrianglesSame 0 = twoTrianglesSame.numCorners ∧
      weldIndexedAttribute twoTrianglesSame 0 0 = .ok (weldResult twoTrianglesSame 0 0) := by
  refine ⟨?_, by with_unfolding_all decide, by decide, by decide, by decide,
    by with_unfolding_all decide⟩
  intro m m' id eps hok hfar
  unfold weldIndexedAttribute at hok
  cases hfind : m.attrs.find? (fun e => e.1 == id) with
  | none => rw [hfind] at hok; cases hok
  | some ia =>
      rw [hfind] at hok
      obtain ⟨i, a⟩ := ia
      rcases a with ⟨nm, us, ch, data⟩
      cases data with
      | plain elem dtype rows => cases hok
      | indexed ve vd vc vals ie idt ic idxs =>
          simp only [] at hok
          cases hok
          unfold pairwiseFar at hfar
          rw [hfind] at hfar
          have hadj : ∀ a b, a < vals.length → b < vals.length → a ≠ b →
              weldAdj m.cornerVerts idxs vals eps a b = false := by
            intro a b haa hbb hab
            have h1 := List.all_eq_true.mp hfar a (List.mem_range.mpr haa)
            have h2 := List.all_eq_true.mp h1 b (List.mem_range.mpr hbb)
            have hne : (a == b) = false := by simpa using hab
            rw [hne, Bool.false_or] at h2
            unfold weldAdj
            cases hcl : closeRows eps (vals.getD a []) (vals.getD b []) with
            | true => rw [hcl] at h2; cases h2
            | false => exact Bool.and_false _
          have hlab : weldLabels m idxs vals eps = List.range vals.length := by
            unfold weldLabels
            exact relabel_id _ _ _ hadj
          unfold poolSize
          unfold weldClasses
          rw [find?_map_setData, hfind]
          have hi : (i == id) = true := by
            have hp := List.find?_some hfind
            simpa using hp
          rw [Option.map_some']
          dsimp only
          rw [if_pos hi]
          dsimp only
          rw [hlab, firstDedup_of_nodup (List.nodup_range vals.length)]
          rw [List.length_map, List.length_range]

/-- Witness for C5: welding the two-triangle attribute with pairwise
distinct values (0,10,...,50) leaves the pool size unchanged. -/
theorem weld_indexed_attribute_pool_size_witness :
    weldIndexedAttribute twoTrianglesDistinct 0 0 =
        .ok (weldResult twoTrianglesDistinct 0 0) ∧
      pairwiseFar twoTrianglesDistinct 0 0 = true ∧
      poolSize (weldResult twoTrianglesDistinct 0 0) 0 =
        poolSize twoTrianglesDistinct 0 :=
  ⟨by with_unfolding_all decide, by with_unfolding_all decide,
    weld_indexed_attribute_pool_size.1 twoTrianglesDistinct
      (weldResult twoTrianglesDistinct 0 0) 0 0
      (by with_unfolding_all decide) (by with_unfolding_all decide)⟩

end Lagrange
